import Mathlib

/-!
Shallow embedding of the incremental crawl engine of `learning-note-analyzer`
(`src/spider/spider.py`, mirrored almost verbatim in `main.py`): timestamp
parsing, the dedup/time filter, the crawl loop state machine, the batch driver,
the merge-on-save combination and the crawl-history save.

Conventions of the embedding:
* Python `datetime` instants are modelled as rationals (`ℚ`), counted in seconds
  since the epoch; the millisecond branch of `_parse_timestamp` divides by 1000
  exactly (the Python code uses float division and microsecond-resolution
  `datetime`, which agree with the exact value on every comparison made here).
* Python sets of strings are modelled as `List String` used through membership;
  `set.add` is modelled by consing (membership is what the code consults).
* The HTTP layer is modelled as an oracle `pages : ℕ → Option PageData`:
  `none` stands for a payload that is empty or lacks the nested
  `data`/`resultList` container, `some pd` for a structurally valid payload
  already run through `parse_articles` (only the fields the engine consults are
  kept on each record).
-/

/-- An article record as produced by `parse_articles`.  Only the fields the
crawl engine itself consults (`id`, `update_time`, `publish_time`) are kept,
plus `title` standing in for the remaining payload fields that are carried
through unchanged. -/
structure Article where
  id : String
  title : String
  update_time : String
  publish_time : String
  deriving DecidableEq

/-- A structurally valid page payload, after `parse_articles`:
`data["data"]["totalCount"]` when present, and the parsed `resultList`. -/
structure PageData where
  totalCount : Option ℕ
  resultList : List Article
  deriving DecidableEq

/-- The mutable spider state the crawl loop reads and writes:
`self.all_articles` and `self.existing_article_ids`. -/
structure SpiderState where
  all_articles : List Article
  existing_article_ids : List String
  deriving DecidableEq

/-! ### Timestamp parsing (`_parse_timestamp`) -/

/-- Drop leading and trailing whitespace, as Python `int(str)` does before
parsing (ASCII whitespace; the unicode extras Python also strips are not
modelled). -/
def stripWhitespace (cs : List Char) : List Char :=
  ((cs.dropWhile Char.isWhitespace).reverse.dropWhile Char.isWhitespace).reverse

/-- The tail of a Python integer-literal digit run: digits, with single
underscores allowed between digits (each `_` must be followed by a digit and
preceded by one, which the caller guarantees).  Returns the digits with the
underscores removed. -/
def pyDigitTail : List Char → Option (List Char)
  | [] => some []
  | '_' :: c :: rest =>
      if c.isDigit then (pyDigitTail rest).map (fun ds => c :: ds) else none
  | c :: rest =>
      if c.isDigit then (pyDigitTail rest).map (fun ds => c :: ds) else none

/-- Value of a list of decimal digits. -/
def digitsToNat (cs : List Char) : ℕ :=
  cs.foldl (fun n c => 10 * n + (c.toNat - '0'.toNat)) 0

/-- A nonempty Python digit run: must start with a digit (not `_`). -/
def pyNat? (cs : List Char) : Option ℕ :=
  match cs with
  | [] => none
  | c :: rest =>
      if c.isDigit then (pyDigitTail rest).map (fun ds => digitsToNat (c :: ds))
      else none

/-- Python `int(s)` on a decimal string: optional surrounding whitespace,
optional sign, digits with embedded single underscores.  `none` models
`ValueError`.  (Non-ASCII unicode digits, which Python also accepts, are not
modelled.) -/
def pyInt? (s : String) : Option ℤ :=
  match stripWhitespace s.toList with
  | '+' :: rest => (pyNat? rest).map Int.ofNat
  | '-' :: rest => (pyNat? rest).map (fun n => -(n : ℤ))
  | rest => (pyNat? rest).map Int.ofNat

/-- `ArticleSpider._parse_timestamp`: empty string is `None`; otherwise parse
as an integer; values above `1e12` are millisecond epochs and are divided by
1000; the result is an absolute UTC instant in seconds. -/
def parse_timestamp (timestamp_str : String) : Option ℚ :=
  if timestamp_str = "" then none
  else
    match pyInt? timestamp_str with
    | none => none
    | some timestamp =>
        if timestamp > 10 ^ 12 then some ((timestamp : ℚ) / 1000)
        else some (timestamp : ℚ)

/-- `ArticleSpider._is_article_newer`: with no threshold every article passes;
otherwise the update time is preferred over the publish time, an unparseable
time means acceptance, and a parsed time is compared strictly. -/
def is_article_newer (article : Article) (since_time : Option ℚ) : Bool :=
  match since_time with
  | none => true
  | some since =>
      let publish_time := parse_timestamp article.publish_time
      let update_time := parse_timestamp article.update_time
      let article_time := match update_time with
        | some t => some t
        | none => publish_time
      match article_time with
      | none => true
      | some t => decide (t > since)

/-- The effective time of an article, as the spec's glossary puts it: the
update time when parseable, else the publish time.  (This is the
`article_time` local of `is_article_newer`, named for the statements.) -/
def effective_time (article : Article) : Option ℚ :=
  match parse_timestamp article.update_time with
  | some t => some t
  | none => parse_timestamp article.publish_time

/-- `ArticleSpider.filter_new_articles`: walk the page's records; drop a record
whose non-empty id is already seen, drop a record that is not newer than the
threshold, otherwise keep it and (when its id is non-empty) add the id to the
seen set.  Returns the kept records together with the final seen set. -/
def filter_new_articles (seen : List String) (since_time : Option ℚ) :
    List Article → List Article × List String
  | [] => ([], seen)
  | article :: rest =>
      if article.id ≠ "" ∧ article.id ∈ seen then
        filter_new_articles seen since_time rest
      else if ¬ is_article_newer article since_time then
        filter_new_articles seen since_time rest
      else
        let seen' := if article.id ≠ "" then article.id :: seen else seen
        let r := filter_new_articles seen' since_time rest
        (article :: r.1, r.2)

/-! ### The crawl loop (`get_all_articles`) -/

/-- The body of one accumulation step of the crawl loop: in incremental mode or
with a filter time set, the page's records go through `filter_new_articles`
(updating the seen set); otherwise they are appended wholesale. -/
def processPage (st : SpiderState) (articles : List Article)
    (filter_time : Option ℚ) (incremental : Bool) : SpiderState :=
  if incremental || filter_time.isSome then
    let r := filter_new_articles st.existing_article_ids filter_time articles
    { all_articles := st.all_articles ++ r.1, existing_article_ids := r.2 }
  else
    { st with all_articles := st.all_articles ++ articles }

/-- The `while page_index <= max_pages` loop of `get_all_articles`, with the
fixed `page_size = 12`.  An invalid payload (`none`) advances the page index
and changes nothing else; a declared `totalCount` stops the loop when
`page_index` exceeds `ceil(totalCount / 12)`; a page with fewer than 12 raw
records stops the loop after being processed.  (The incremental zero-new-pages
heuristic in the source only emits a log line and so has no trace here.) -/
def crawlLoop (pages : ℕ → Option PageData) (max_pages : ℕ)
    (filter_time : Option ℚ) (incremental : Bool)
    (page_index : ℕ) (st : SpiderState) : SpiderState :=
  if h : page_index ≤ max_pages then
    match pages page_index with
    | none => crawlLoop pages max_pages filter_time incremental (page_index + 1) st
    | some data =>
        let stop_by_total := match data.totalCount with
          | some total_count => decide (page_index > (total_count + 12 - 1) / 12)
          | none => false
        if stop_by_total then st
        else
          let articles := data.resultList
          let st' := processPage st articles filter_time incremental
          if articles.length < 12 then st'
          else crawlLoop pages max_pages filter_time incremental (page_index + 1) st'
  else st
termination_by max_pages + 1 - page_index
decreasing_by all_goals omega

/-- `ArticleSpider.get_all_articles`: resolves the filter time
(`since_time` if set, else the stored last crawl time in incremental mode)
and runs the loop from page 1 on the instance's current state.  The Python
method returns `self.all_articles`, i.e. the `all_articles` field of the
resulting state. -/
def get_all_articles (pages : ℕ → Option PageData) (max_pages : ℕ)
    (incremental : Bool) (since_time last_crawl_time : Option ℚ)
    (st : SpiderState) : SpiderState :=
  let filter_time := match since_time with
    | some t => some t
    | none => if incremental then last_crawl_time else none
  crawlLoop pages max_pages filter_time incremental 1 st

/-- `ArticleSpider.get_all_articles_batch`: for each requested configuration
name that exists, stash `all_articles`, reset it to `[]`, run
`get_all_articles` for that configuration, record a copy of its return value
under the name, and restore `all_articles` as stash ++ fresh results.  The
seen-id set is shared across configurations.  `pagesOf` gives each
configuration's page oracle and `valid` the registered configuration names. -/
def get_all_articles_batch (pagesOf : String → ℕ → Option PageData)
    (valid : List String) (config_names : List String) (max_pages : ℕ)
    (incremental : Bool) (since_time last_crawl_time : Option ℚ)
    (st : SpiderState) : List (String × List Article) × SpiderState :=
  match config_names with
  | [] => ([], st)
  | name :: rest =>
      if name ∈ valid then
        let run := get_all_articles (pagesOf name) max_pages incremental
          since_time last_crawl_time
          { all_articles := [], existing_article_ids := st.existing_article_ids }
        let st' : SpiderState :=
          { all_articles := st.all_articles ++ run.all_articles,
            existing_article_ids := run.existing_article_ids }
        let r := get_all_articles_batch pagesOf valid rest max_pages incremental
          since_time last_crawl_time st'
        ((name, run.all_articles) :: r.1, r.2)
      else
        get_all_articles_batch pagesOf valid rest max_pages incremental
          since_time last_crawl_time st

/-! ### Merge-on-save (`merge_and_save_incremental`) and history save -/

/-- The id set `merge_and_save_incremental` builds from the existing corpus:
`{article.get('id', '') for article in existing_articles if article.get('id')}`
— only truthy (non-empty) ids enter the set. -/
def existing_id_set (articles : List Article) : List String :=
  (articles.map Article.id).filter (fun s => s ≠ "")

/-- The pure combination step of `merge_and_save_incremental` (the incoming
records are the flattened values of `new_results`): drop each incoming record
whose id is in the existing id set, then append the survivors to the existing
corpus. -/
def merge_articles (existing_articles incoming : List Article) : List Article :=
  let existing_ids := existing_id_set existing_articles
  let unique_new_articles := incoming.filter (fun a => decide (a.id ∉ existing_ids))
  existing_articles ++ unique_new_articles

/-- Merge as §4.6 of the spec words it: `existing` followed by exactly those
`incoming` records whose identifier is not a non-empty identifier occurring in
`existing`; empty-identifier records are never dropped.  (Spec-side definition,
to be compared with `merge_articles`.) -/
def merge_per_spec (existing_articles incoming : List Article) : List Article :=
  existing_articles ++ incoming.filter
    (fun a => decide (¬ (a.id ≠ "" ∧ a.id ∈ existing_articles.map Article.id)))

/-- The crawl-history record: last crawl time and total article count. -/
structure CrawlHistory where
  last_crawl_time : ℚ
  total_articles : ℕ
  deriving DecidableEq

/-- `ArticleSpider.save_crawl_history`: build the history record and attempt
the file write (modelled by the `write` oracle, `Except.error` standing for a
raised `IOError`/`Exception`); the `try/except` catches any write failure,
logs it, and falls through — the method returns normally either way. -/
def save_crawl_history (now : ℚ) (st : SpiderState)
    (write : CrawlHistory → Except String Unit) : Except String Unit :=
  let history : CrawlHistory :=
    { last_crawl_time := now, total_articles := st.all_articles.length }
  match write history with
  | Except.ok u => Except.ok u
  | Except.error _ => Except.ok ()

/-! ### Helper lemmas -/

theorem is_article_newer_some (article : Article) (since : ℚ) :
    is_article_newer article (some since) =
      match effective_time article with
      | none => true
      | some t => decide (t > since) := rfl

theorem effective_time_none (article : Article)
    (hu : parse_timestamp article.update_time = none)
    (hp : parse_timestamp article.publish_time = none) :
    effective_time article = none := by
  unfold effective_time
  rw [hu]
  exact hp

/-! ### C1 -/

/-- C1: the time filter boundary is strict.  For a record whose effective time
(update time if parseable, else publish time) parses to `t` and any set
threshold `since`, `_is_article_newer` accepts exactly when `t > since`; in
particular `t = since` is rejected and `t = since + 1` (one second later) is
accepted. -/
theorem time_filter_boundary_strict (article : Article) (since t : ℚ)
    (h : effective_time article = some t) :
    is_article_newer article (some since) = decide (t > since) ∧
    (t = since → is_article_newer article (some since) = false) ∧
    (t = since + 1 → is_article_newer article (some since) = true) := by
  have hmain : is_article_newer article (some since) = decide (t > since) := by
    rw [is_article_newer_some, h]
  refine ⟨hmain, ?_, ?_⟩
  · intro ht
    subst ht
    rw [hmain]
    simp
  · intro ht
    subst ht
    rw [hmain]
    simp

/-- C1 witness: the record with update time `"100"` has effective time 100; it
is rejected at threshold 100 and accepted at threshold 99. -/
theorem time_filter_boundary_strict_witness :
    effective_time ⟨"w1", "", "100", ""⟩ = some 100 ∧
    is_article_newer ⟨"w1", "", "100", ""⟩ (some 100) = false ∧
    is_article_newer ⟨"w1", "", "100", ""⟩ (some 99) = true := by
  refine ⟨by decide, ?_, ?_⟩
  · exact (time_filter_boundary_strict ⟨"w1", "", "100", ""⟩ 100 100 (by decide)).2.1 rfl
  · rw [(time_filter_boundary_strict ⟨"w1", "", "100", ""⟩ 99 100 (by decide)).1]
    decide

/-! ### C3 -/

/-- C3: dedup correctness.  A record whose identifier is non-empty and already
in the seen set is rejected by `filter_new_articles` for every threshold
(set or unset): it is skipped and the recursion continues with the seen set
unchanged. -/
theorem dedup_rejects_seen (seen : List String) (since_time : Option ℚ)
    (article : Article) (rest : List Article)
    (hid : article.id ≠ "") (hmem : article.id ∈ seen) :
    filter_new_articles seen since_time (article :: rest) =
      filter_new_articles seen since_time rest := by
  simp only [filter_new_articles]
  rw [if_pos ⟨hid, hmem⟩]

/-- C3 witness: a record with id `"x"` already seen is dropped and the seen
set is untouched. -/
theorem dedup_rejects_seen_witness :
    ("x" : String) ≠ "" ∧ ("x" : String) ∈ ["x"] ∧
    filter_new_articles ["x"] none [⟨"x", "t", "", ""⟩] = ([], ["x"]) := by
  refine ⟨by decide, by decide, ?_⟩
  rw [dedup_rejects_seen ["x"] none ⟨"x", "t", "", ""⟩ [] (by decide) (by decide)]
  rfl

/-! ### C7 -/

/-- C7: unknown-time inclusion.  A record whose update-time and publish-time
strings are both missing/empty/unparseable passes the time check for every
threshold, and — provided its identifier is not already seen — it is accepted
by `filter_new_articles` (kept in the output, its non-empty id added to the
seen set). -/
theorem unknown_time_always_included (article : Article) (since_time : Option ℚ)
    (seen : List String)
    (hu : parse_timestamp article.update_time = none)
    (hp : parse_timestamp article.publish_time = none)
    (hseen : article.id ∉ seen) :
    is_article_newer article since_time = true ∧
    filter_new_articles seen since_time [article] =
      ([article], if article.id ≠ "" then article.id :: seen else seen) := by
  have heff : effective_time article = none := effective_time_none article hu hp
  have hnewer : is_article_newer article since_time = true := by
    cases since_time with
    | none => rfl
    | some since => rw [is_article_newer_some, heff]
  refine ⟨hnewer, ?_⟩
  simp only [filter_new_articles]
  rw [if_neg (fun hc => hseen hc.2), if_neg (fun hn => hn hnewer)]

/-- C7 witness: a record with empty update time and unparseable publish time
`"abc"` is accepted at threshold 5 and its id is added to the seen set. -/
theorem unknown_time_always_included_witness :
    parse_timestamp "" = none ∧ parse_timestamp "abc" = none ∧
    ("w7" : String) ∉ ["z"] ∧
    is_article_newer ⟨"w7", "", "", "abc"⟩ (some 5) = true ∧
    filter_new_articles ["z"] (some 5) [⟨"w7", "", "", "abc"⟩] =
      ([⟨"w7", "", "", "abc"⟩], ["w7", "z"]) := by
  have h := unknown_time_always_included ⟨"w7", "", "", "abc"⟩ (some 5) ["z"]
    (by decide) (by decide) (by decide)
  refine ⟨by decide, by decide, by decide, h.1, ?_⟩
  rw [h.2]
  decide

/-! ### C9 -/

/-- C9 counterexample: with a write oracle that always raises, the history
save still returns normally (`Except.ok ()`), so the operation does swallow a
write failure instead of raising to its caller. -/
theorem save_history_swallows_failure :
    save_crawl_history 0 ⟨[], []⟩ (fun _ => Except.error "IOError") =
        Except.ok () ∧
    (fun _ => (Except.error "IOError" : Except String Unit))
        ({ last_crawl_time := 0, total_articles := 0 } : CrawlHistory) =
      Except.error "IOError" :=
  ⟨rfl, rfl⟩

/-- C9 amended: the history save never raises; a write failure is caught,
logged and swallowed, and the method returns normally in every case. -/
theorem save_history_never_raises (now : ℚ) (st : SpiderState)
    (write : CrawlHistory → Except String Unit) :
    save_crawl_history now st write = Except.ok () := by
  cases hw : write { last_crawl_time := now, total_articles := st.all_articles.length } with
  | ok u => simp [save_crawl_history, hw]
  | error e => simp [save_crawl_history, hw]

/-! ### C2 -/

/-- C2 counterexample: merge is not idempotent once the existing corpus
contains a record with an empty identifier — re-merging duplicates that
record, because empty ids never enter the existing-id set. -/
theorem merge_idempotent_fails_on_empty_id :
    merge_articles [⟨"", "", "", ""⟩] (merge_articles [⟨"", "", "", ""⟩] []) ≠
      merge_articles [⟨"", "", "", ""⟩] [] := by decide

/-- C2 amended: merge is idempotent provided every record of the existing list
has a non-empty identifier: `merge(X, merge(X, Y)) = merge(X, Y)`. -/
theorem merge_idempotent_of_nonempty_ids (X Y : List Article)
    (hX : ∀ a ∈ X, a.id ≠ "") :
    merge_articles X (merge_articles X Y) = merge_articles X Y := by
  simp only [merge_articles]
  rw [List.filter_append]
  have hfX : X.filter (fun a => decide (a.id ∉ existing_id_set X)) = [] := by
    apply List.filter_eq_nil_iff.mpr
    intro a ha
    simp only [decide_eq_true_eq, not_not]
    simp only [existing_id_set, List.mem_filter]
    exact ⟨List.mem_map_of_mem Article.id ha, by simpa using hX a ha⟩
  have hfY : (Y.filter (fun a => decide (a.id ∉ existing_id_set X))).filter
      (fun a => decide (a.id ∉ existing_id_set X)) =
      Y.filter (fun a => decide (a.id ∉ existing_id_set X)) := by
    apply List.filter_eq_self.mpr
    intro a ha
    exact (List.mem_filter.mp ha).2
  rw [hfX, List.nil_append, hfY]

/-- C2 witness: idempotence at a concrete pair with non-empty ids. -/
theorem merge_idempotent_witness :
    (∀ a ∈ [(⟨"1", "", "", ""⟩ : Article)], a.id ≠ "") ∧
    merge_articles [⟨"1", "", "", ""⟩]
        (merge_articles [⟨"1", "", "", ""⟩] [⟨"2", "", "", ""⟩]) =
      merge_articles [⟨"1", "", "", ""⟩] [⟨"2", "", "", ""⟩] :=
  ⟨by decide, merge_idempotent_of_nonempty_ids _ _ (by decide)⟩

/-! ### C4 -/

/-- C4: merge characterization.  The merged output is the existing list
followed by exactly those incoming records whose identifier is not a non-empty
identifier occurring in the existing list (order preserved, empty-identifier
records always kept), and Scenario D holds: merging `[{id:"1"},{id:"2"}]` with
`[{id:"2"},{id:"3"}]` yields `[{id:"1"},{id:"2"},{id:"3"}]`. -/
theorem merge_characterization (E I : List Article) :
    merge_articles E I = merge_per_spec E I ∧
    merge_articles [⟨"1", "", "", ""⟩, ⟨"2", "", "", ""⟩]
        [⟨"2", "", "", ""⟩, ⟨"3", "", "", ""⟩] =
      [⟨"1", "", "", ""⟩, ⟨"2", "", "", ""⟩, ⟨"3", "", "", ""⟩] := by
  constructor
  · simp only [merge_articles, merge_per_spec]
    congr 1
    apply List.filter_congr
    intro a ha
    rw [decide_eq_decide]
    simp only [existing_id_set, List.mem_filter]
    constructor
    · intro hnot hand
      exact hnot ⟨hand.2, by simpa using hand.1⟩
    · intro hnot hand
      exact hnot ⟨by simpa using hand.2, hand.1⟩
  · decide

/-! ### Crawl loop step lemmas -/

theorem crawlLoop_stop (pages : ℕ → Option PageData) (max_pages : ℕ)
    (ft : Option ℚ) (inc : Bool) (pi : ℕ) (st : SpiderState)
    (h : ¬ pi ≤ max_pages) :
    crawlLoop pages max_pages ft inc pi st = st := by
  rw [crawlLoop]
  simp [h]

theorem crawlLoop_invalid (pages : ℕ → Option PageData) (max_pages : ℕ)
    (ft : Option ℚ) (inc : Bool) (pi : ℕ) (st : SpiderState)
    (h : pi ≤ max_pages) (hp : pages pi = none) :
    crawlLoop pages max_pages ft inc pi st =
      crawlLoop pages max_pages ft inc (pi + 1) st := by
  rw [crawlLoop]
  simp [h, hp]

theorem crawlLoop_total_break (pages : ℕ → Option PageData) (max_pages : ℕ)
    (ft : Option ℚ) (inc : Bool) (pi : ℕ) (st : SpiderState)
    (d : PageData) (tc : ℕ)
    (h : pi ≤ max_pages) (hp : pages pi = some d)
    (htc : d.totalCount = some tc) (hgt : (tc + 12 - 1) / 12 < pi) :
    crawlLoop pages max_pages ft inc pi st = st := by
  rw [crawlLoop]
  simp [h, hp, htc]
  intro hle
  exact absurd hle (by omega)

theorem crawlLoop_lastpage (pages : ℕ → Option PageData) (max_pages : ℕ)
    (ft : Option ℚ) (inc : Bool) (pi : ℕ) (st : SpiderState) (d : PageData)
    (h : pi ≤ max_pages) (hp : pages pi = some d)
    (htc : ∀ tc, d.totalCount = some tc → pi ≤ (tc + 12 - 1) / 12)
    (hlen : d.resultList.length < 12) :
    crawlLoop pages max_pages ft inc pi st = processPage st d.resultList ft inc := by
  cases htotal : d.totalCount with
  | none =>
      rw [crawlLoop]
      simp [h, hp, htotal, hlen]
  | some tc =>
      have hle := htc tc htotal
      rw [crawlLoop]
      simp [h, hp, htotal, hlen]
      intro hgt
      exact absurd hgt (by omega)

theorem crawlLoop_continue (pages : ℕ → Option PageData) (max_pages : ℕ)
    (ft : Option ℚ) (inc : Bool) (pi : ℕ) (st : SpiderState) (d : PageData)
    (h : pi ≤ max_pages) (hp : pages pi = some d)
    (htc : ∀ tc, d.totalCount = some tc → pi ≤ (tc + 12 - 1) / 12)
    (hlen : ¬ d.resultList.length < 12) :
    crawlLoop pages max_pages ft inc pi st =
      crawlLoop pages max_pages ft inc (pi + 1)
        (processPage st d.resultList ft inc) := by
  cases htotal : d.totalCount with
  | none =>
      rw [crawlLoop]
      simp [h, hp, htotal, hlen]
  | some tc =>
      have hle := htc tc htotal
      rw [crawlLoop]
      simp [h, hp, htotal, hlen]
      intro hgt
      exact absurd hgt (by omega)

/-! ### C6 -/

/-- C6: invalid-payload skip.  When the fetched payload is empty or lacks the
nested `data`/`resultList` container, the loop advances the page index by one
and continues with the accumulator and seen set untouched; the invalid page
does not trigger the fewer-than-pageSize termination rule (termination can
then only come from the later pages or the `max_pages` ceiling inside the
recursive call). -/
theorem invalid_payload_skipped (pages : ℕ → Option PageData) (max_pages : ℕ)
    (ft : Option ℚ) (inc : Bool) (pi : ℕ) (st : SpiderState)
    (h : pi ≤ max_pages) (hp : pages pi = none) :
    crawlLoop pages max_pages ft inc pi st =
      crawlLoop pages max_pages ft inc (pi + 1) st :=
  crawlLoop_invalid pages max_pages ft inc pi st h hp

/-- C6 witness: a run whose only page is invalid just moves from page 1 to
page 2. -/
theorem invalid_payload_skipped_witness :
    1 ≤ 1 ∧ (fun _ : ℕ => (none : Option PageData)) 1 = none ∧
    crawlLoop (fun _ => none) 1 none false 1 ⟨[], []⟩ =
      crawlLoop (fun _ => none) 1 none false 2 ⟨[], []⟩ :=
  ⟨le_refl 1, rfl,
    invalid_payload_skipped (fun _ => none) 1 none false 1 ⟨[], []⟩ (le_refl 1) rfl⟩

/-! ### C5 -/

/-- The 12 records of page 1 in Scenario A (`totalCount = 14`). -/
def scenario_page1 : List Article := List.replicate 12 ⟨"a", "", "", ""⟩

/-- The 2 records of page 2 in Scenario A. -/
def scenario_page2 : List Article := List.replicate 2 ⟨"b", "", "", ""⟩

/-- A page oracle realizing Scenario A: pages 1 and 2 as above, everything
else invalid. -/
def scenario_pages : ℕ → Option PageData := fun i =>
  if i = 1 then some ⟨some 14, scenario_page1⟩
  else if i = 2 then some ⟨some 14, scenario_page2⟩ else none

/-- C5: last-page termination.  A page with fewer raw records than the page
size 12 makes the loop return right after processing that page, even when the
declared `totalCount` admits further pages; and in Scenario A
(`totalCount = 14`) any oracle serving 12 records on page 1 and 2 records on
page 2 yields exactly those 14 records — pages past 2 are never consulted. -/
theorem last_page_terminates (pages : ℕ → Option PageData) (max_pages : ℕ)
    (ft : Option ℚ) (inc : Bool) (pi : ℕ) (st : SpiderState) (d : PageData)
    (h : pi ≤ max_pages) (hp : pages pi = some d)
    (htc : ∀ tc, d.totalCount = some tc → pi ≤ (tc + 12 - 1) / 12)
    (hlen : d.resultList.length < 12) :
    crawlLoop pages max_pages ft inc pi st = processPage st d.resultList ft inc ∧
    (∀ pages2 : ℕ → Option PageData,
      pages2 1 = some ⟨some 14, scenario_page1⟩ →
      pages2 2 = some ⟨some 14, scenario_page2⟩ →
      (get_all_articles pages2 100 false none none ⟨[], []⟩).all_articles =
        scenario_page1 ++ scenario_page2 ∧
      (get_all_articles pages2 100 false none none ⟨[], []⟩).all_articles.length
        = 14) := by
  refine ⟨crawlLoop_lastpage pages max_pages ft inc pi st d h hp htc hlen, ?_⟩
  intro pages2 h1 h2
  have hmain : get_all_articles pages2 100 false none none ⟨[], []⟩ =
      ⟨scenario_page1 ++ scenario_page2, []⟩ := by
    show crawlLoop pages2 100 none false 1 ⟨[], []⟩ = _
    rw [crawlLoop_continue pages2 100 none false 1 ⟨[], []⟩ ⟨some 14, scenario_page1⟩
      (by omega) h1 (by intro tc heq; injection heq with he; subst he; decide)
      (by decide)]
    rw [show processPage ⟨[], []⟩
        (⟨some 14, scenario_page1⟩ : PageData).resultList none false
        = ⟨scenario_page1, []⟩ from rfl]
    rw [crawlLoop_lastpage pages2 100 none false 2 ⟨scenario_page1, []⟩
      ⟨some 14, scenario_page2⟩ (by omega) h2
      (by intro tc heq; injection heq with he; subst he; decide) (by decide)]
    rfl
  exact ⟨by rw [hmain], by rw [hmain]; decide⟩

/-- C5 witness: Scenario A run end to end on the concrete oracle. -/
theorem last_page_terminates_witness :
    2 ≤ 100 ∧ scenario_pages 2 = some ⟨some 14, scenario_page2⟩ ∧
    scenario_page2.length < 12 ∧
    crawlLoop scenario_pages 100 none false 2 ⟨scenario_page1, []⟩ =
      processPage ⟨scenario_page1, []⟩ scenario_page2 none false ∧
    (get_all_articles scenario_pages 100 false none none ⟨[], []⟩).all_articles.length
      = 14 := by
  have h := last_page_terminates scenario_pages 100 none false 2
    ⟨scenario_page1, []⟩ ⟨some 14, scenario_page2⟩ (by omega) (by decide)
    (by intro tc heq; injection heq with he; subst he; decide) (by decide)
  exact ⟨by omega, by decide, by decide, h.1,
    (h.2 scenario_pages (by decide) (by decide)).2⟩

/-! ### C8 -/

/-- C8: in incremental mode, a page past index 3 that yields zero accepted
records only triggers a diagnostic log; the loop still continues to the next
page whenever the other termination rules (totalCount bound, short page,
`max_pages` ceiling) do not fire in that iteration. -/
theorem zero_new_heuristic_not_stopping (pages : ℕ → Option PageData)
    (max_pages : ℕ) (ft : Option ℚ) (pi : ℕ) (st : SpiderState) (d : PageData)
    (h : pi ≤ max_pages) (hp : pages pi = some d)
    (htc : ∀ tc, d.totalCount = some tc → pi ≤ (tc + 12 - 1) / 12)
    (_hzero : (filter_new_articles st.existing_article_ids ft d.resultList).1.length = 0)
    (_hpage : 3 < pi)
    (hlen : ¬ d.resultList.length < 12) :
    crawlLoop pages max_pages ft true pi st =
      crawlLoop pages max_pages ft true (pi + 1)
        (processPage st d.resultList ft true) :=
  crawlLoop_continue pages max_pages ft true pi st d h hp htc hlen

/-- A page of 12 records that are all duplicates of the seen id `"d"`. -/
def dup_page : PageData := ⟨none, List.replicate 12 ⟨"d", "", "", ""⟩⟩

/-- The page oracle for the C8 witness: page 4 is the all-duplicates page. -/
def dup_pages : ℕ → Option PageData := fun i =>
  if i = 4 then some dup_page else none

/-- C8 witness: on page 4 of 5, with every record already seen (zero accepted)
and 12 raw records, the incremental loop still moves on to page 5. -/
theorem zero_new_heuristic_not_stopping_witness :
    4 ≤ 5 ∧ dup_pages 4 = some dup_page ∧
    (filter_new_articles ["d"] none dup_page.resultList).1.length = 0 ∧
    3 < 4 ∧ ¬ dup_page.resultList.length < 12 ∧
    crawlLoop dup_pages 5 none true 4 ⟨[], ["d"]⟩ =
      crawlLoop dup_pages 5 none true 5
        (processPage ⟨[], ["d"]⟩ dup_page.resultList none true) :=
  ⟨by omega, by decide, by decide, by omega, by decide,
    zero_new_heuristic_not_stopping dup_pages 5 none 4 ⟨[], ["d"]⟩ dup_page
      (by omega) (by decide)
      (fun tc heq => Option.noConfusion heq)
      (by decide) (by omega) (by decide)⟩

/-! ### C10 -/

theorem processPage_extends (st : SpiderState) (arts : List Article)
    (ft : Option ℚ) (inc : Bool) :
    st.all_articles <+: (processPage st arts ft inc).all_articles := by
  unfold processPage
  split
  · exact ⟨_, rfl⟩
  · exact ⟨_, rfl⟩

theorem crawlLoop_extends (pages : ℕ → Option PageData) (max_pages : ℕ)
    (ft : Option ℚ) (inc : Bool) :
    ∀ (k pi : ℕ) (st : SpiderState), max_pages + 1 - pi ≤ k →
      st.all_articles <+: (crawlLoop pages max_pages ft inc pi st).all_articles := by
  intro k
  induction k with
  | zero =>
      intro pi st hk
      rw [crawlLoop_stop pages max_pages ft inc pi st (by omega)]
  | succ k ih =>
      intro pi st hk
      by_cases h : pi ≤ max_pages
      · cases hp : pages pi with
        | none =>
            rw [crawlLoop_invalid pages max_pages ft inc pi st h hp]
            exact ih (pi + 1) st (by omega)
        | some d =>
            have key : (∀ tc, d.totalCount = some tc → pi ≤ (tc + 12 - 1) / 12) →
                st.all_articles <+:
                  (crawlLoop pages max_pages ft inc pi st).all_articles := by
              intro htc
              by_cases hlen : d.resultList.length < 12
              · rw [crawlLoop_lastpage pages max_pages ft inc pi st d h hp htc hlen]
                exact processPage_extends st d.resultList ft inc
              · rw [crawlLoop_continue pages max_pages ft inc pi st d h hp htc hlen]
                exact (processPage_extends st d.resultList ft inc).trans
                  (ih (pi + 1) (processPage st d.resultList ft inc) (by omega))
            cases htotal : d.totalCount with
            | some tc =>
                by_cases hbreak : (tc + 12 - 1) / 12 < pi
                · rw [crawlLoop_total_break pages max_pages ft inc pi st d tc
                    h hp htotal hbreak]
                · exact key (fun tc' heq => by
                    rw [htotal] at heq
                    injection heq with he
                    omega)
            | none =>
                exact key (fun tc' heq => by
                  rw [htotal] at heq
                  exact Option.noConfusion heq)
      · rw [crawlLoop_stop pages max_pages ft inc pi st h]

theorem get_all_articles_extends (pages : ℕ → Option PageData) (max_pages : ℕ)
    (inc : Bool) (s l : Option ℚ) (st : SpiderState) :
    st.all_articles <+: (get_all_articles pages max_pages inc s l st).all_articles := by
  unfold get_all_articles
  exact crawlLoop_extends pages max_pages _ inc max_pages 1 st (by omega)

theorem batch_results_independent (pagesOf : String → ℕ → Option PageData)
    (valid : List String) (max_pages : ℕ) (inc : Bool) (s l : Option ℚ) :
    ∀ (names seen : List String) (A B : List Article),
      (get_all_articles_batch pagesOf valid names max_pages inc s l ⟨A, seen⟩).1 =
      (get_all_articles_batch pagesOf valid names max_pages inc s l ⟨B, seen⟩).1 := by
  intro names
  induction names with
  | nil =>
      intro seen A B
      rfl
  | cons name rest ih =>
      intro seen A B
      by_cases hv : name ∈ valid
      · simp only [get_all_articles_batch, if_pos hv]
        exact congrArg (List.cons _) (ih _ _ _)
      · simp only [get_all_articles_batch, if_neg hv]
        exact ih seen A B

/-- C10: implicit accumulator persistence.  First, `get_all_articles` returns
the instance's shared `all_articles` list: across two successive calls on the
same state the list returned by the first call is a prefix of the list
returned by the second.  Second, `get_all_articles_batch` resets
`all_articles` to empty before each configuration, so its per-configuration
results are independent of whatever the accumulator held before the batch. -/
theorem accumulator_persistence
    (pages1 pages2 : ℕ → Option PageData) (mp1 mp2 : ℕ) (inc1 inc2 : Bool)
    (s1 l1 s2 l2 : Option ℚ) (st : SpiderState)
    (pagesOf : String → ℕ → Option PageData) (valid names seen : List String)
    (mp : ℕ) (inc : Bool) (s l : Option ℚ) (A B : List Article) :
    (get_all_articles pages1 mp1 inc1 s1 l1 st).all_articles <+:
      (get_all_articles pages2 mp2 inc2 s2 l2
        (get_all_articles pages1 mp1 inc1 s1 l1 st)).all_articles ∧
    (get_all_articles_batch pagesOf valid names mp inc s l ⟨A, seen⟩).1 =
      (get_all_articles_batch pagesOf valid names mp inc s l ⟨B, seen⟩).1 :=
  ⟨get_all_articles_extends pages2 mp2 inc2 s2 l2 _,
    batch_results_independent pagesOf valid mp inc s l names seen A B⟩
